import Mathlib

/-!
Shallow embedding of `src/server.js` of the plant_exchange repository.

The file models, in order of appearance in the source:
  * the event model (`EventTypes`, `createEvent`, `createMember`, `createPlant`,
    `createMessage`),
  * `EventStore` (`append`, `persist`, `getEvents`), with an explicit action
    trace for the ordering inside `append` and an explicit outcome for the
    try/catch inside `persist`,
  * `StateProjections` (`setupProjections` scan pipelines, `rebuildFromHistory`,
    `getCurrentState`),
  * the command methods of `PlantExchangeService`,
  * the SSE fan-out of `PlantExchangeServer` (`setupSSE`,
    `broadcastToSSEClients`, the `/events` route),
  * a small reference heap for the aliasing behaviour of
    `getEvents() { return [...this.eventHistory]; }`.

JavaScript `Map`s are modelled as association lists with unique keys in
insertion order (`Map.set` overwrites in place, `Map.delete` removes).
`R.fromPairs` + `Object.entries` is modelled by folding `msSet` from the empty
map: for the string keys used here (uuid v4 ids, never array-index strings)
JavaScript object key order is first-insertion order with later pairs
overwriting the value, exactly as `Map.set`.  Nondeterministic inputs of the
source (`uuidv4()`, `new Date()`, success of `fs.writeFile`) are passed as
explicit parameters.
-/

namespace PlantExchange

/-- The `EventTypes` enumeration of the source. -/
inductive EventType where
  | MEMBER_REGISTERED
  | PLANT_OFFERED
  | PLANT_WANTED
  | MESSAGE_SENT
  | TRADE_INITIATED
  | TRADE_COMPLETED
  | PLANT_REMOVED
deriving DecidableEq, Repr

/-- The type-specific part of an event payload, mirroring the objects built by
`createMember`, `createPlant`, `createMessage`, and the `{ plantId }` literal
of `removePlant`.  Fields that may be `undefined` in JavaScript (missing keys
of the caller's input object) are `Option`s. -/
inductive PayloadData where
  | memberData (name email location : Option String) (bio : String)
      (joinedAt : String) (reputation : Nat)
  | plantData (name description category : Option String)
      (memberId : Option String) (ptype : String) (status : String)
      (createdAt : String) (images : List String)
  | messageData (fromId toId content : Option String) (tradeId : Option String)
      (timestamp : String) (readFlag : Bool)
  | removalData
deriving DecidableEq, Repr

/-- An event payload.  `pid` is the payload's `id` field (`""` for the removal
payload `{ plantId }`, which has no `id` field; no code path reads it there),
`plantId` is the payload's `plantId` field (`""` when absent). -/
structure Payload where
  pid : String
  plantId : String
  data : PayloadData
deriving DecidableEq, Repr

/-- An event as built by `createEvent` and finalized by `EventStore.append`.
`sequenceNumber` is `none` on a draft and `some n` once appended. -/
structure Event where
  id : String
  type : EventType
  payload : Payload
  memberId : Option String
  timestamp : String
  version : Nat
  sequenceNumber : Option Nat
deriving DecidableEq, Repr

/-- `createEvent(type, payload, memberId)`; `uuid` models `uuidv4()` and `ts`
models `new Date().toISOString()`. -/
def createEvent (etype : EventType) (payload : Payload)
    (memberId : Option String) (uuid ts : String) : Event :=
  { id := uuid, type := etype, payload := payload, memberId := memberId,
    timestamp := ts, version := 1, sequenceNumber := none }

/-- `createMember(name, email, location, bio = '')`: the `bio` parameter
defaults to `''` when the argument is `undefined`. -/
def createMember (name email location : Option String) (bio : Option String)
    (uuid ts : String) : Payload :=
  { pid := uuid, plantId := "",
    data := PayloadData.memberData name email location (bio.getD "") ts 0 }

/-- `createPlant(name, description, category, memberId, type = 'offer')`. -/
def createPlant (name description category : Option String)
    (memberId : Option String) (ptype : String) (uuid ts : String) : Payload :=
  { pid := uuid, plantId := "",
    data := PayloadData.plantData name description category memberId ptype
      "available" ts [] }

/-- `createMessage(fromId, toId, content, tradeId = null)`. -/
def createMessage (fromId toId content tradeId : Option String)
    (uuid ts : String) : Payload :=
  { pid := uuid, plantId := "",
    data := PayloadData.messageData fromId toId content tradeId ts false }

/-! ## JavaScript `Map` operations. -/

/-- A JavaScript `Map<string, payload>`: entries in insertion order. -/
abbrev MapL := List (String × Payload)

/-- `Map.set(k, v)`: overwrite in place when the key is present (keys of a
`Map` are unique, so at most the first occurrence matches), append otherwise. -/
def msSet : MapL → String → Payload → MapL
  | [], k, v => [(k, v)]
  | (k', v') :: rest, k, v =>
      if k' = k then (k, v) :: rest else (k', v') :: msSet rest k v

/-- `Map.delete(k)` (also `R.omit` of a single key): drop the entry with key
`k`; deleting an absent key is a no-op. -/
def msDelete (m : MapL) (k : String) : MapL :=
  m.filter fun p => decide (p.1 ≠ k)

/-- `R.omit(names, obj)`: drop every key listed in `names`. -/
def omitKeys (names : List String) (m : MapL) : MapL :=
  m.filter fun p => decide (p.1 ∉ names)

/-- `R.fromPairs` followed by `new Map(Object.entries(·))`: later pairs
overwrite the value, the key keeps its first-insertion position — the fold of
`Map.set` from the empty map. -/
def fromPairs (ps : List (String × Payload)) : MapL :=
  ps.foldl (fun m p => msSet m p.1 p.2) []

/-- `Array.from(m.values())`: the values in insertion order. -/
def mapValues (m : MapL) : List Payload := m.map Prod.snd

/-! ## EventStore. -/

/-- The mutable state of an `EventStore` (the `events$` subject and the file
path carry no state that the claims depend on). -/
structure EventStore where
  eventHistory : List Event
deriving DecidableEq, Repr

/-- Outcome of `persist()`: the `try/catch` inside it either succeeds or
catches the write error and only logs it (`console.error`) — it never
rethrows. -/
inductive PersistResult where
  | success
  | failedLogged
deriving DecidableEq, Repr

/-- `persist()`, with the success of `fs.writeFile` as an explicit input. -/
def persist (_events : List Event) (writeOk : Bool) : PersistResult :=
  if writeOk then PersistResult.success else PersistResult.failedLogged

/-- One observable step of `append`, in program order. -/
inductive Action where
  | pushMem (e : Event)
  | notifyListeners (e : Event)
  | persistAttempt (events : List Event) (ok : Bool)
  | returnEvent (e : Event)
deriving DecidableEq, Repr

/-- Everything `append` produces: the updated store, the value the awaited
call returns to the caller (`persist` never throws, so `append` never
rejects), the outcome of the persist attempt, and the trace of its steps in
program order. -/
structure AppendResult where
  store : EventStore
  event : Event
  result : Except String Event
  persistOutcome : PersistResult
  trace : List Action
deriving Repr

/-- `EventStore.append(event)`: spread in `sequenceNumber = length + 1`, push
onto `eventHistory`, emit on `events$`, then `await this.persist()`, then
return the finalized event.  The synchronous prefix (assign + push + emit)
runs to completion before the single `await`, so overlapping `append` calls
never interleave inside it; a sequence of calls is therefore modelled by
sequential application. -/
def EventStore.append (s : EventStore) (e : Event) (writeOk : Bool) :
    AppendResult :=
  let ew : Event := { e with sequenceNumber := some (s.eventHistory.length + 1) }
  let hist : List Event := s.eventHistory ++ [ew]
  { store := { eventHistory := hist },
    event := ew,
    result := Except.ok ew,
    persistOutcome := persist hist writeOk,
    trace := [Action.pushMem ew, Action.notifyListeners ew,
              Action.persistAttempt hist writeOk, Action.returnEvent ew] }

/-- `getEvents() { return [...this.eventHistory]; }` — as a value, the copy
equals the history (the aliasing behaviour of the copy is modelled separately
on a reference heap below). -/
def EventStore.getEvents (s : EventStore) : List Event :=
  s.eventHistory

/-! ## StateProjections. -/

/-- The `filter` of the members pipeline in `setupProjections`. -/
def membersFilter (e : Event) : Bool :=
  e.type == EventType.MEMBER_REGISTERED

/-- The `filter` of the plants pipeline:
`[PLANT_OFFERED, PLANT_WANTED, PLANT_REMOVED].includes(event.type)`. -/
def plantsFilter (e : Event) : Bool :=
  e.type == EventType.PLANT_OFFERED || e.type == EventType.PLANT_WANTED ||
    e.type == EventType.PLANT_REMOVED

/-- The `filter` of the messages pipeline. -/
def messagesFilter (e : Event) : Bool :=
  e.type == EventType.MESSAGE_SENT

/-- The `scan` body of the members pipeline:
`newMembers.set(event.payload.id, event.payload)`. -/
def membersStep (members : MapL) (e : Event) : MapL :=
  msSet members e.payload.pid e.payload

/-- The `scan` body of the plants pipeline: `set` on `PLANT_OFFERED` and
`PLANT_WANTED`, `delete(event.payload.plantId)` on `PLANT_REMOVED`; the
`switch` has no default, so other types return the copied map unchanged. -/
def plantsStep (plants : MapL) (e : Event) : MapL :=
  match e.type with
  | EventType.PLANT_OFFERED => msSet plants e.payload.pid e.payload
  | EventType.PLANT_WANTED => msSet plants e.payload.pid e.payload
  | EventType.PLANT_REMOVED => msDelete plants e.payload.plantId
  | _ => plants

/-- The `scan` body of the messages pipeline. -/
def messagesStep (messages : MapL) (e : Event) : MapL :=
  msSet messages e.payload.pid e.payload

/-- The members `scan` accumulator after the whole event list has flowed
through the pipeline (`filter` then `scan` from the empty map). -/
def membersFold (events : List Event) : MapL :=
  (events.filter membersFilter).foldl membersStep []

/-- The plants `scan` accumulator after the whole event list. -/
def plantsFold (events : List Event) : MapL :=
  (events.filter plantsFilter).foldl plantsStep []

/-- The messages `scan` accumulator after the whole event list. -/
def messagesFold (events : List Event) : MapL :=
  (events.filter messagesFilter).foldl messagesStep []

/-- The members part of `rebuildFromHistory`: filter `MEMBER_REGISTERED`,
map to `[payload.id, payload]` pairs, `R.fromPairs`. -/
def rebuildMembers (events : List Event) : MapL :=
  fromPairs ((events.filter membersFilter).map fun e => (e.payload.pid, e.payload))

/-- The filter used by the plants part of `rebuildFromHistory`:
`[PLANT_OFFERED, PLANT_WANTED].includes(event.type)` — note it does NOT
include `PLANT_REMOVED`. -/
def offeredOrWanted (e : Event) : Bool :=
  e.type == EventType.PLANT_OFFERED || e.type == EventType.PLANT_WANTED

/-- The `removedPlants` list of `rebuildFromHistory`: the `plantId`s of all
`PLANT_REMOVED` events, in order. -/
def removedIds (events : List Event) : List String :=
  (events.filter fun e => e.type == EventType.PLANT_REMOVED).map
    fun e => e.payload.plantId

/-- The plants part of `rebuildFromHistory`: build the map from all
offered/wanted events, then `R.omit` every plantId that was ever removed —
regardless of whether the removal happened before or after the offer. -/
def rebuildPlants (events : List Event) : MapL :=
  let plants := fromPairs
    ((events.filter offeredOrWanted).map fun e => (e.payload.pid, e.payload))
  omitKeys (removedIds events) plants

/-- The messages part of `rebuildFromHistory`. -/
def rebuildMessages (events : List Event) : MapL :=
  fromPairs ((events.filter messagesFilter).map fun e => (e.payload.pid, e.payload))

/-- The current values of the projection `BehaviorSubject`s (`members$`,
`plants$`, `messages$`, `trades$`). -/
structure Projections where
  members : MapL
  plants : MapL
  messages : MapL
  trades : MapL
deriving DecidableEq, Repr

/-- `rebuildFromHistory()`: recompute members, plants and messages from
`getEvents()` and `next` the results into the subjects, replacing whatever
values they held (`trades$` is not rebuilt). -/
def rebuildFromHistory (store : EventStore) (p : Projections) : Projections :=
  { members := rebuildMembers (EventStore.getEvents store),
    plants := rebuildPlants (EventStore.getEvents store),
    messages := rebuildMessages (EventStore.getEvents store),
    trades := p.trades }

/-- The snapshot built by `getCurrentState()`:
`Array.from(subject.value.values())` for each of the three projections. -/
structure CurrentState where
  members : List Payload
  plants : List Payload
  messages : List Payload
deriving DecidableEq, Repr

/-- `getCurrentState()`. -/
def getCurrentState (p : Projections) : CurrentState :=
  { members := mapValues p.members,
    plants := mapValues p.plants,
    messages := mapValues p.messages }

/-! ## SSE fan-out (`setupSSE`, `broadcastToSSEClients`, the `/events` route). -/

/-- One SSE message, as built by `broadcastToSSEClients` from the payloads of
`setupSSE` and of the `/events` route (`type` plus `data`). -/
inductive Msg where
  | initialState (s : CurrentState)
  | eventMsg (e : Event)
  | membersUpdated (vals : List Payload)
  | plantsUpdated (vals : List Payload)
  | messagesUpdated (vals : List Payload)
deriving DecidableEq, Repr

/-- The whole system state: the store, the private `scan` accumulators of the
three projection pipelines (these live inside the RxJS operators and are NOT
reset by `rebuildFromHistory`), the `BehaviorSubject` values, and the message
queue of each registered SSE client. -/
structure SystemState where
  store : EventStore
  scanMembers : MapL
  scanPlants : MapL
  scanMessages : MapL
  projections : Projections
  sseClients : List (List Msg)
deriving DecidableEq, Repr

/-- The messages broadcast for one appended event, in delivery order.
`events$` notifies its observers in subscription order: the members, plants
and messages `scan` pipelines were subscribed first (in `setupProjections`,
run from the `StateProjections` constructor), and the `'event'` broadcaster
of `setupSSE` last.  Each pipeline whose `filter` matches emits its new
accumulator into its `BehaviorSubject`, whose `setupSSE` observer immediately
broadcasts the `*_updated` message — so the projection-update messages go out
first, then the `'event'` message. -/
def broadcastsFor (s : SystemState) (ew : Event) : List Msg :=
  (if membersFilter ew then
    [Msg.membersUpdated (mapValues (membersStep s.scanMembers ew))] else [])
  ++ (if plantsFilter ew then
    [Msg.plantsUpdated (mapValues (plantsStep s.scanPlants ew))] else [])
  ++ (if messagesFilter ew then
    [Msg.messagesUpdated (mapValues (messagesStep s.scanMessages ew))] else [])
  ++ [Msg.eventMsg ew]

/-- `broadcastToSSEClients`: the same message (here: message list) is written
to every registered client, in the same order. -/
def deliverAll (clients : List (List Msg)) (msgs : List Msg) :
    List (List Msg) :=
  clients.map fun q => q ++ msgs

/-- The operations the claims range over: a command-driven `append`, an
explicit `rebuildFromHistory()` call, and an SSE client registration
(`GET /events`). -/
inductive Op where
  | append (draft : Event)
  | rebuild
  | register
deriving Repr

/-- The messages a `rebuildFromHistory()` call broadcasts: it calls
`members$.next`, `plants$.next` and `messages$.next` in that order, each with
the freshly rebuilt map, and each `next` synchronously triggers that
subject's `setupSSE` observer, which broadcasts the corresponding
`*_updated` message to every registered client. -/
def rebuildBroadcasts (store : EventStore) : List Msg :=
  [Msg.membersUpdated (mapValues (rebuildMembers (EventStore.getEvents store))),
   Msg.plantsUpdated (mapValues (rebuildPlants (EventStore.getEvents store))),
   Msg.messagesUpdated (mapValues (rebuildMessages (EventStore.getEvents store)))]

/-- One system step.  On `append`: finalize and push the event (its broadcasts
happen inside `events$.next`, before the persist attempt), advance each
matching `scan` accumulator, push the new accumulator into the corresponding
`BehaviorSubject` (non-matching subjects keep their value), and deliver the
broadcast list to every client.  On `rebuild`: replace the subject values by
the rebuilt maps (the `scan` accumulators are untouched), and — since each
`subject.next` synchronously triggers its `setupSSE` observer — deliver the
three `*_updated` messages of `rebuildBroadcasts` to every client.  On
`register`: add a client whose queue holds the `initial_state` message built
from `getCurrentState()`. -/
def stepOp (s : SystemState) : Op → SystemState
  | Op.append draft =>
      let r := EventStore.append s.store draft true
      let ew := r.event
      let msgs := broadcastsFor s ew
      let sm := if membersFilter ew then membersStep s.scanMembers ew
        else s.scanMembers
      let sp := if plantsFilter ew then plantsStep s.scanPlants ew
        else s.scanPlants
      let sg := if messagesFilter ew then messagesStep s.scanMessages ew
        else s.scanMessages
      { store := r.store,
        scanMembers := sm, scanPlants := sp, scanMessages := sg,
        projections :=
          { members := if membersFilter ew then sm else s.projections.members,
            plants := if plantsFilter ew then sp else s.projections.plants,
            messages := if messagesFilter ew then sg else s.projections.messages,
            trades := s.projections.trades },
        sseClients := deliverAll s.sseClients msgs }
  | Op.rebuild =>
      { s with projections := rebuildFromHistory s.store s.projections,
               sseClients := deliverAll s.sseClients (rebuildBroadcasts s.store) }
  | Op.register =>
      { s with sseClients :=
          s.sseClients ++ [[Msg.initialState (getCurrentState s.projections)]] }

/-- The initial system: empty store (`initialize` with no existing file), the
`scan` seeds `new Map()`, the `BehaviorSubject` initial values `new Map()`,
no clients. -/
def sysInit : SystemState :=
  { store := { eventHistory := [] },
    scanMembers := [], scanPlants := [], scanMessages := [],
    projections := { members := [], plants := [], messages := [], trades := [] },
    sseClients := [] }

/-- Run a list of operations from the initial system. -/
def runOps (ops : List Op) : SystemState :=
  ops.foldl stepOp sysInit

/-! ## PlantExchangeService command methods.

None of the five methods inspects its input: each builds the canonical entity
with the `create*` factory (missing input fields flow through as `undefined`),
wraps it with `createEvent`, and awaits `EventStore.append` — there is no
validation branch anywhere, so no input is ever rejected before the append. -/

/-- The raw body of `registerMember` (`req.body`); absent keys are `none`. -/
structure MemberInput where
  name : Option String
  email : Option String
  location : Option String
  bio : Option String
deriving DecidableEq, Repr

/-- The raw plant fields of `offerPlant` / `requestPlant`. -/
structure PlantInput where
  name : Option String
  description : Option String
  category : Option String
deriving DecidableEq, Repr

/-- The raw body of `sendMessage`. -/
structure MessageInput where
  fromId : Option String
  toId : Option String
  content : Option String
  tradeId : Option String
deriving DecidableEq, Repr

/-- `registerMember(memberData)`. -/
def registerMember (store : EventStore) (memberData : MemberInput)
    (uuidEntity uuidEvent ts : String) (writeOk : Bool) :
    EventStore × Except String Event :=
  let member := createMember memberData.name memberData.email
    memberData.location memberData.bio uuidEntity ts
  let event := createEvent EventType.MEMBER_REGISTERED member none uuidEvent ts
  let r := EventStore.append store event writeOk
  (r.store, r.result)

/-- `offerPlant(plantData, memberId)`. -/
def offerPlant (store : EventStore) (plantData : PlantInput)
    (memberId : Option String) (uuidEntity uuidEvent ts : String)
    (writeOk : Bool) : EventStore × Except String Event :=
  let plant := createPlant plantData.name plantData.description
    plantData.category memberId "offer" uuidEntity ts
  let event := createEvent EventType.PLANT_OFFERED plant memberId uuidEvent ts
  let r := EventStore.append store event writeOk
  (r.store, r.result)

/-- `requestPlant(plantData, memberId)`. -/
def requestPlant (store : EventStore) (plantData : PlantInput)
    (memberId : Option String) (uuidEntity uuidEvent ts : String)
    (writeOk : Bool) : EventStore × Except String Event :=
  let plant := createPlant plantData.name plantData.description
    plantData.category memberId "wanted" uuidEntity ts
  let event := createEvent EventType.PLANT_WANTED plant memberId uuidEvent ts
  let r := EventStore.append store event writeOk
  (r.store, r.result)

/-- `sendMessage(messageData)`. -/
def sendMessage (store : EventStore) (messageData : MessageInput)
    (uuidEntity uuidEvent ts : String) (writeOk : Bool) :
    EventStore × Except String Event :=
  let message := createMessage messageData.fromId messageData.toId
    messageData.content messageData.tradeId uuidEntity ts
  let event := createEvent EventType.MESSAGE_SENT message messageData.fromId
    uuidEvent ts
  let r := EventStore.append store event writeOk
  (r.store, r.result)

/-- `removePlant(plantId, memberId)`: the payload is the literal
`{ plantId }`. -/
def removePlant (store : EventStore) (plantId : String)
    (memberId : Option String) (uuidEvent ts : String) (writeOk : Bool) :
    EventStore × Except String Event :=
  let event := createEvent EventType.PLANT_REMOVED
    { pid := "", plantId := plantId, data := PayloadData.removalData }
    memberId uuidEvent ts
  let r := EventStore.append store event writeOk
  (r.store, r.result)

/-! ## Reference heap for `getEvents`' copy semantics.

`getEvents()` returns `[...this.eventHistory]`, a fresh array.  To state the
aliasing consequences we model arrays as cells of a tiny heap: `EventStore`'s
`eventHistory` field holds a reference, `push` mutates that cell in place, and
the spread copy allocates a fresh cell. -/

/-- A heap of arrays of events; a reference is an index into `cells`. -/
structure Heap where
  cells : List (List Event)
deriving Repr

/-- Dereference (out-of-range reads give `[]`; all theorems restrict to valid
references). -/
def readRef (h : Heap) (r : Nat) : List Event :=
  h.cells.getD r []

/-- In-place update of one cell. -/
def writeRef (h : Heap) (r : Nat) (v : List Event) : Heap :=
  { cells := h.cells.set r v }

/-- Allocate a fresh array. -/
def alloc (h : Heap) (v : List Event) : Heap × Nat :=
  ({ cells := h.cells ++ [v] }, h.cells.length)

/-- The store as seen by the heap model: a reference to its
`eventHistory` array. -/
structure StoreRef where
  histRef : Nat
deriving Repr

/-- `getEvents()` on the heap: read the history and return a freshly
allocated copy — `[...this.eventHistory]`. -/
def getEventsRef (h : Heap) (st : StoreRef) : Heap × Nat :=
  alloc h (readRef h st.histRef)

/-- `append` on the heap (only the part that touches the array):
`this.eventHistory.push(eventWithMetadata)` mutates the store's cell in
place. -/
def appendRef (h : Heap) (st : StoreRef) (e : Event) : Heap × Event :=
  let hist := readRef h st.histRef
  let ew : Event := { e with sequenceNumber := some (hist.length + 1) }
  (writeRef h st.histRef (hist ++ [ew]), ew)

/-! ## Auxiliary definitions used by the theorems. -/

/-- A sequence of `append` calls (each one's synchronous prefix is atomic, see
`EventStore.append`; `writeOk` is irrelevant to the resulting store). -/
def appendAll (s : EventStore) (drafts : List Event) : EventStore :=
  drafts.foldl (fun st e => (EventStore.append st e true).store) s

/-- Is this trace step the `events$.next` notification? -/
def isNotify : Action → Bool
  | Action.notifyListeners _ => true
  | _ => false

/-- Is this trace step the persist attempt? -/
def isPersist : Action → Bool
  | Action.persistAttempt _ _ => true
  | _ => false

/-- Is this trace step the return to the caller? -/
def isReturn : Action → Bool
  | Action.returnEvent _ => true
  | _ => false

/-- Is this SSE message a `*_updated` projection message? -/
def isProjectionUpdate : Msg → Bool
  | Msg.membersUpdated _ => true
  | Msg.plantsUpdated _ => true
  | Msg.messagesUpdated _ => true
  | _ => false

/-- Is this SSE message the raw `'event'` message? -/
def isEventMsg : Msg → Bool
  | Msg.eventMsg _ => true
  | _ => false

/-- No removed plant id is later the `payload.id` of an offered/wanted event.
This holds in every real execution, where `payload.id` is a fresh `uuidv4()`
that cannot equal any earlier removal's `plantId`; `rebuildFromHistory`'s
omit-all-removals shortcut is only correct on such histories. -/
def noReAdd (events : List Event) : Prop :=
  events.Pairwise fun a b =>
    a.type = EventType.PLANT_REMOVED →
    (b.type = EventType.PLANT_OFFERED ∨ b.type = EventType.PLANT_WANTED) →
    b.payload.pid ≠ a.payload.plantId

instance (events : List Event) : Decidable (noReAdd events) := by
  unfold noReAdd
  infer_instance

/-- Does this operation leave the `rebuildFromHistory` path untouched? -/
def notRebuild : Op → Bool
  | Op.rebuild => false
  | _ => true

/-- A run that never calls `rebuildFromHistory` after startup. -/
def liveOnly (ops : List Op) : Prop :=
  ∀ op ∈ ops, notRebuild op = true

instance (ops : List Op) : Decidable (liveOnly ops) := by
  unfold liveOnly
  infer_instance

/-! Concrete sample data for counterexamples and witnesses. -/

/-- A concrete plant payload with `id = u`. -/
def samplePlant (u : String) : Payload :=
  { pid := u, plantId := "",
    data := PayloadData.plantData (some "Monstera") (some "healthy")
      (some "houseplants") (some "M1") "offer" "available" "2024-01-01" [] }

/-- A concrete `PLANT_OFFERED` draft event for plant id `u`. -/
def sampleOffer (u evId : String) : Event :=
  createEvent EventType.PLANT_OFFERED (samplePlant u) (some "M1") evId
    "2024-01-01"

/-- A concrete `PLANT_WANTED` draft event for plant id `u`. -/
def sampleWant (u evId : String) : Event :=
  createEvent EventType.PLANT_WANTED
    { samplePlant u with
      data := PayloadData.plantData (some "Hoya") none (some "houseplants")
        (some "M1") "wanted" "available" "2024-01-01" [] }
    (some "M1") evId "2024-01-01"

/-- A concrete `PLANT_REMOVED` draft event whose payload is `{ plantId }`. -/
def sampleRemoval (target evId : String) : Event :=
  createEvent EventType.PLANT_REMOVED
    { pid := "", plantId := target, data := PayloadData.removalData }
    (some "M1") evId "2024-01-02"

/-- A concrete member payload. -/
def sampleMember : Payload :=
  createMember (some "Ada") (some "ada@example.org") (some "Berlin") none "M1"
    "2024-01-01"

/-- A concrete `MEMBER_REGISTERED` draft event. -/
def sampleRegistration : Event :=
  createEvent EventType.MEMBER_REGISTERED sampleMember none "EM1" "2024-01-01"

/-! ## Theorems. -/

/-- Helper: the trace of `append` in program order. -/
theorem append_trace_eq (s : EventStore) (e : Event) (writeOk : Bool) :
    (EventStore.append s e writeOk).trace =
      [Action.pushMem (EventStore.append s e writeOk).event,
       Action.notifyListeners (EventStore.append s e writeOk).event,
       Action.persistAttempt
         (EventStore.append s e writeOk).store.eventHistory writeOk,
       Action.returnEvent (EventStore.append s e writeOk).event] := rfl

/-- C3 (amended): within every `append`, the in-memory push and the
notification of the log-change listeners happen strictly before the persist
attempt, and the persist attempt completes strictly before `append` returns
to its caller; all three steps occur.  (The original claim's order —
persistence before notification — is refuted by `c3_counterexample`.) -/
theorem append_notifies_then_persists_then_returns (s : EventStore) (e : Event)
    (writeOk : Bool) :
    (EventStore.append s e writeOk).trace.findIdx isNotify <
      (EventStore.append s e writeOk).trace.findIdx isPersist ∧
    (EventStore.append s e writeOk).trace.findIdx isPersist <
      (EventStore.append s e writeOk).trace.findIdx isReturn ∧
    (EventStore.append s e writeOk).trace.findIdx isReturn <
      (EventStore.append s e writeOk).trace.length := by
  refine ⟨?_, ?_, ?_⟩ <;>
    simp [EventStore.append, List.findIdx, List.findIdx.go, isNotify, isPersist,
      isReturn]

/-- C3 counterexample: on a concrete append, the `events$.next` notification
of the listeners occurs strictly before the persist attempt in the trace —
persistence does NOT complete before the listeners are notified. -/
theorem c3_counterexample :
    (EventStore.append { eventHistory := [] } sampleRegistration true).trace.findIdx
        isNotify <
      (EventStore.append { eventHistory := [] } sampleRegistration true).trace.findIdx
        isPersist := by
  decide

/-- C4 (amended): when the durable write fails, the error is caught inside
`persist` and only logged; `append` still resolves successfully with the
finalized event, which is kept in the in-memory log.  No `PersistenceError`
reaches the caller. -/
theorem persist_failure_swallowed (s : EventStore) (e : Event) :
    (EventStore.append s e false).result =
      Except.ok (EventStore.append s e false).event ∧
    (EventStore.append s e false).persistOutcome = PersistResult.failedLogged ∧
    (EventStore.append s e false).event ∈
      (EventStore.append s e false).store.eventHistory := by
  refine ⟨rfl, rfl, ?_⟩
  simp [EventStore.append]

/-- C4 counterexample: on a concrete append whose durable write fails, the
call still succeeds (`Except.ok`) — no `PersistenceError` is surfaced to the
caller; the failure is only recorded in the log. -/
theorem c4_counterexample :
    (EventStore.append { eventHistory := [] } sampleRegistration false).result.isOk
        = true ∧
    (EventStore.append { eventHistory := [] } sampleRegistration false).persistOutcome
        = PersistResult.failedLogged := by
  decide

/-- Helper for C5: appending from an arbitrary store extends the sequence
numbers by a run continuing from the current length. -/
theorem appendAll_seqNums (drafts : List Event) (s : EventStore) :
    (appendAll s drafts).eventHistory.map Event.sequenceNumber =
      s.eventHistory.map Event.sequenceNumber ++
        (List.range drafts.length).map
          (fun i => some (s.eventHistory.length + 1 + i)) := by
  induction drafts generalizing s with
  | nil => simp [appendAll]
  | cons d ds ih =>
      have h := ih { eventHistory := s.eventHistory ++
        [{ d with sequenceNumber := some (s.eventHistory.length + 1) }] }
      simp only [appendAll, List.foldl_cons] at h ⊢
      rw [show (EventStore.append s d true).store =
        { eventHistory := s.eventHistory ++
          [{ d with sequenceNumber := some (s.eventHistory.length + 1) }] } from rfl]
      rw [h]
      simp [List.range_succ_eq_map, List.map_map, Function.comp_def]
      intro i _
      omega

/-- C5: for every sequence of appends from a fresh store, the assigned
sequence numbers are exactly `1, 2, …, n` in log order — gapless, strictly
increasing, starting at 1, no duplicates, and each event's index in
`eventHistory` equals its `sequenceNumber - 1`.  (Concurrent appends cannot
interleave inside the synchronous assign-and-push prefix of `append`, so any
concurrent load is a sequence of `append` applications.) -/
theorem sequence_numbers_gapless_from_one (drafts : List Event) :
    (appendAll { eventHistory := [] } drafts).eventHistory.map
        Event.sequenceNumber =
      (List.range drafts.length).map (fun i => some (i + 1)) ∧
    (appendAll { eventHistory := [] } drafts).eventHistory.length =
      drafts.length := by
  have h := appendAll_seqNums drafts { eventHistory := [] }
  simp only [List.map_nil, List.nil_append, List.length_nil] at h
  constructor
  · rw [h]
    apply List.map_congr_left
    intro i _
    simp only [Option.some.injEq]
    omega
  · have := congrArg List.length h
    simpa using this

/-- C7: applying a `PLANT_REMOVED` event to the plants projection removes
exactly the entry whose key is the payload's `plantId` (every other entry is
kept, nothing else changes), and when that id is absent the projection value
is left entirely unchanged — no error, no crash. -/
theorem plant_removed_projection_semantics (m : MapL) (e : Event)
    (h : e.type = EventType.PLANT_REMOVED) :
    (∀ k v, (k, v) ∈ plantsStep m e ↔ (k, v) ∈ m ∧ k ≠ e.payload.plantId) ∧
    ((∀ kv ∈ m, kv.1 ≠ e.payload.plantId) → plantsStep m e = m) := by
  constructor
  · intro k v
    simp [plantsStep, h, msDelete, List.mem_filter]
  · intro habs
    simp only [plantsStep, h, msDelete]
    rw [List.filter_eq_self]
    intro p hp
    simpa using habs p hp

/-- C7 witness: on a concrete two-entry projection, removing `"P1"` removes
exactly that entry, and a removal targeting the absent id `"P9"` leaves the
map unchanged. -/
theorem plant_removed_projection_semantics_witness :
    ((∀ k v, (k, v) ∈ plantsStep [("P1", samplePlant "P1"), ("P2", samplePlant "P2")]
          (sampleRemoval "P1" "ER1") ↔
        (k, v) ∈ [("P1", samplePlant "P1"), ("P2", samplePlant "P2")] ∧ k ≠ "P1") ∧
      ((∀ kv ∈ [("P1", samplePlant "P1"), ("P2", samplePlant "P2")],
          kv.1 ≠ "P1") →
        plantsStep [("P1", samplePlant "P1"), ("P2", samplePlant "P2")]
          (sampleRemoval "P1" "ER1") =
          [("P1", samplePlant "P1"), ("P2", samplePlant "P2")])) ∧
    plantsStep [("P2", samplePlant "P2")] (sampleRemoval "P9" "ER2") =
      [("P2", samplePlant "P2")] := by
  constructor
  · exact plant_removed_projection_semantics
      [("P1", samplePlant "P1"), ("P2", samplePlant "P2")]
      (sampleRemoval "P1" "ER1") rfl
  · exact (plant_removed_projection_semantics [("P2", samplePlant "P2")]
      (sampleRemoval "P9" "ER2") rfl).2 (by decide)

/-- C8: calling `rebuildFromHistory` twice in a row, with no events appended
in between, produces identical projection snapshots both times: the second
call replaces the subject values with exactly the values the first call
computed (replacement, never a merge), and the `*_updated` snapshot messages
it broadcasts to the registered clients are identical to the first call's.
(Each call does broadcast its snapshots anew — queues grow by the same three
messages — the snapshots themselves are what is identical.) -/
theorem rebuild_idempotent (s : SystemState) :
    (stepOp (stepOp s Op.rebuild) Op.rebuild).projections =
      (stepOp s Op.rebuild).projections ∧
    rebuildBroadcasts (stepOp s Op.rebuild).store = rebuildBroadcasts s.store :=
  ⟨rfl, rfl⟩

/-- C6 (amended): no command method validates its input.  Every call — with
arbitrarily incomplete input — builds its entity, creates an event, appends
it (growing the log by exactly one), and resolves successfully; no
`ValidationError` path exists. -/
theorem commands_always_append_without_validation :
    ∀ (s : EventStore) (mi : MemberInput) (pin : PlantInput)
      (mgi : MessageInput) (mid : Option String) (plid u1 u2 ts : String)
      (ok : Bool),
      ((registerMember s mi u1 u2 ts ok).1.eventHistory.length =
          s.eventHistory.length + 1 ∧
        (registerMember s mi u1 u2 ts ok).2.isOk = true) ∧
      ((offerPlant s pin mid u1 u2 ts ok).1.eventHistory.length =
          s.eventHistory.length + 1 ∧
        (offerPlant s pin mid u1 u2 ts ok).2.isOk = true) ∧
      ((requestPlant s pin mid u1 u2 ts ok).1.eventHistory.length =
          s.eventHistory.length + 1 ∧
        (requestPlant s pin mid u1 u2 ts ok).2.isOk = true) ∧
      ((sendMessage s mgi u1 u2 ts ok).1.eventHistory.length =
          s.eventHistory.length + 1 ∧
        (sendMessage s mgi u1 u2 ts ok).2.isOk = true) ∧
      ((removePlant s plid mid u2 ts ok).1.eventHistory.length =
          s.eventHistory.length + 1 ∧
        (removePlant s plid mid u2 ts ok).2.isOk = true) := by
  intro s mi pin mgi mid plid u1 u2 ts ok
  refine ⟨⟨?_, rfl⟩, ⟨?_, rfl⟩, ⟨?_, rfl⟩, ⟨?_, rfl⟩, ⟨?_, rfl⟩⟩ <;>
    simp [registerMember, offerPlant, requestPlant, sendMessage, removePlant,
      EventStore.append]

/-- C6 counterexample: a `registerMember` call whose input has every field
missing is not rejected — it succeeds and appends an event (a state change),
so no malformed input is ever rejected before event creation. -/
theorem c6_counterexample :
    (registerMember { eventHistory := [] }
        { name := none, email := none, location := none, bio := none }
        "uuid-m" "uuid-e" "2024-01-01" true).1.eventHistory.length = 1 ∧
    (registerMember { eventHistory := [] }
        { name := none, email := none, location := none, bio := none }
        "uuid-m" "uuid-e" "2024-01-01" true).2.isOk = true := by
  decide

/-- Helper: running one more operation steps the final state. -/
theorem runOps_concat (ops : List Op) (op : Op) :
    runOps (ops ++ [op]) = stepOp (runOps ops) op := by
  simp [runOps, List.foldl_append]

/-- Helper: `fromPairs` of one more pair is a `Map.set` on the result. -/
theorem fromPairs_concat (ps : List (String × Payload)) (p : String × Payload) :
    fromPairs (ps ++ [p]) = msSet (fromPairs ps) p.1 p.2 := by
  simp [fromPairs, List.foldl_append]

/-- Helper: the members half of `rebuildFromHistory` is literally the members
fold — `R.fromPairs` with later pairs overwriting is `Map.set` applied in
order. -/
theorem rebuildMembers_eq_fold (events : List Event) :
    rebuildMembers events = membersFold events := by
  simp only [rebuildMembers, membersFold, fromPairs, List.foldl_map]
  rfl

/-- Helper: the messages half of `rebuildFromHistory` is the messages fold. -/
theorem rebuildMessages_eq_fold (events : List Event) :
    rebuildMessages events = messagesFold events := by
  simp only [rebuildMessages, messagesFold, fromPairs, List.foldl_map]
  rfl

/-- Helper: the members fold over one more event. -/
theorem membersFold_concat (l : List Event) (e : Event) :
    membersFold (l ++ [e]) =
      if membersFilter e then membersStep (membersFold l) e
      else membersFold l := by
  by_cases h : membersFilter e <;>
    simp [membersFold, List.filter_append, h, List.filter_cons]

/-- Helper: the plants fold over one more event. -/
theorem plantsFold_concat (l : List Event) (e : Event) :
    plantsFold (l ++ [e]) =
      if plantsFilter e then plantsStep (plantsFold l) e
      else plantsFold l := by
  by_cases h : plantsFilter e <;>
    simp [plantsFold, List.filter_append, h, List.filter_cons]

/-- Helper: the messages fold over one more event. -/
theorem messagesFold_concat (l : List Event) (e : Event) :
    messagesFold (l ++ [e]) =
      if messagesFilter e then messagesStep (messagesFold l) e
      else messagesFold l := by
  by_cases h : messagesFilter e <;>
    simp [messagesFold, List.filter_append, h, List.filter_cons]

/-- Helper: the removed-plantId list over one more event. -/
theorem removedIds_concat (l : List Event) (e : Event) :
    removedIds (l ++ [e]) =
      removedIds l ++
        (if e.type = EventType.PLANT_REMOVED then [e.payload.plantId] else []) := by
  by_cases h : e.type = EventType.PLANT_REMOVED <;>
    simp [removedIds, List.filter_append, h, List.filter_cons]

/-- Helper: `R.omit` commutes with `Map.set` of a key that is not omitted. -/
theorem omitKeys_msSet (names : List String) (P : MapL) (k : String)
    (v : Payload) (hk : k ∉ names) :
    omitKeys names (msSet P k v) = msSet (omitKeys names P) k v := by
  simp only [omitKeys]
  induction P with
  | nil => simp [msSet, List.filter_cons, hk]
  | cons p rest ih =>
      obtain ⟨k', v'⟩ := p
      by_cases hkk : k' = k
      · subst hkk
        simp [msSet, List.filter_cons, hk]
      · have ih' : List.filter (fun p => !decide (p.1 ∈ names)) (msSet rest k v) =
            msSet (List.filter (fun p => !decide (p.1 ∈ names)) rest) k v := by
          simpa [decide_not] using ih
        by_cases hmem : k' ∈ names <;>
          simp [msSet, List.filter_cons, hkk, hmem, hk, ih']

/-- Helper: omitting one more key is a `Map.delete` on the result. -/
theorem omitKeys_concat_delete (names : List String) (q : String) (m : MapL) :
    omitKeys (names ++ [q]) m = msDelete (omitKeys names m) q := by
  simp only [omitKeys, msDelete, List.filter_filter]
  apply List.filter_congr
  intro p _
  by_cases h1 : p.1 ∈ names <;> by_cases h2 : p.1 = q <;>
    simp [h1, h2]

/-- Helper: extending the history with an offered/wanted event whose id was
never removed extends the rebuilt plants map with a `Map.set`. -/
theorem rebuildPlants_concat_ow (l : List Event) (e : Event)
    (how : offeredOrWanted e = true)
    (hnr : ¬ e.type = EventType.PLANT_REMOVED)
    (hk : e.payload.pid ∉ removedIds l) :
    rebuildPlants (l ++ [e]) =
      msSet (rebuildPlants l) e.payload.pid e.payload := by
  simp only [rebuildPlants]
  rw [removedIds_concat, if_neg hnr, List.append_nil, List.filter_append]
  have hfil : List.filter offeredOrWanted [e] = [e] := by
    simp [List.filter_cons, how]
  rw [hfil]
  simp only [List.map_append, List.map_cons, List.map_nil]
  rw [fromPairs_concat]
  exact omitKeys_msSet _ _ _ _ hk

/-- Helper: extending the history with a removal event deletes its `plantId`
from the rebuilt plants map. -/
theorem rebuildPlants_concat_removed (l : List Event) (e : Event)
    (he : e.type = EventType.PLANT_REMOVED) :
    rebuildPlants (l ++ [e]) =
      msDelete (rebuildPlants l) e.payload.plantId := by
  have how : offeredOrWanted e = false := by
    unfold offeredOrWanted
    rw [he]
    decide
  simp only [rebuildPlants]
  rw [removedIds_concat, if_pos he, List.filter_append]
  have hfil : List.filter offeredOrWanted [e] = [] := by
    simp [List.filter_cons, how]
  rw [hfil, List.append_nil, omitKeys_concat_delete]

/-- Helper: an event that is neither offered/wanted nor a removal leaves the
rebuilt plants map unchanged. -/
theorem rebuildPlants_concat_other (l : List Event) (e : Event)
    (how : offeredOrWanted e = false)
    (hnr : ¬ e.type = EventType.PLANT_REMOVED) :
    rebuildPlants (l ++ [e]) = rebuildPlants l := by
  simp only [rebuildPlants]
  rw [removedIds_concat, if_neg hnr, List.append_nil, List.filter_append]
  have hfil : List.filter offeredOrWanted [e] = [] := by
    simp [List.filter_cons, how]
  rw [hfil, List.append_nil]

/-- Helper: on a history where no removed plant id is later re-offered or
re-wanted, the omit-all-removals shortcut of `rebuildFromHistory` computes
exactly the in-order plants fold. -/
theorem rebuildPlants_eq_fold_of_noReAdd (events : List Event)
    (h : noReAdd events) : rebuildPlants events = plantsFold events := by
  induction events using List.reverseRecOn with
  | nil => rfl
  | append_singleton l e ih =>
      obtain ⟨h1, -, hcross⟩ := List.pairwise_append.mp h
      have ihl := ih h1
      cases he : e.type
      case PLANT_OFFERED =>
        have how : offeredOrWanted e = true := by
          unfold offeredOrWanted
          rw [he]
          decide
        have hpf : plantsFilter e = true := by
          unfold plantsFilter
          rw [he]
          decide
        have hnr : ¬ e.type = EventType.PLANT_REMOVED := by
          rw [he]
          decide
        have hk : e.payload.pid ∉ removedIds l := by
          intro hmem
          obtain ⟨a, hal, haid⟩ := List.mem_map.mp hmem
          obtain ⟨hal', hatype⟩ := List.mem_filter.mp hal
          have hrem : a.type = EventType.PLANT_REMOVED := by
            simpa using hatype
          exact hcross a hal' e (List.mem_singleton.mpr rfl) hrem
            (Or.inl he) haid.symm
        rw [rebuildPlants_concat_ow l e how hnr hk, ihl, plantsFold_concat]
        simp [hpf, plantsStep, he]
      case PLANT_WANTED =>
        have how : offeredOrWanted e = true := by
          unfold offeredOrWanted
          rw [he]
          decide
        have hpf : plantsFilter e = true := by
          unfold plantsFilter
          rw [he]
          decide
        have hnr : ¬ e.type = EventType.PLANT_REMOVED := by
          rw [he]
          decide
        have hk : e.payload.pid ∉ removedIds l := by
          intro hmem
          obtain ⟨a, hal, haid⟩ := List.mem_map.mp hmem
          obtain ⟨hal', hatype⟩ := List.mem_filter.mp hal
          have hrem : a.type = EventType.PLANT_REMOVED := by
            simpa using hatype
          exact hcross a hal' e (List.mem_singleton.mpr rfl) hrem
            (Or.inr he) haid.symm
        rw [rebuildPlants_concat_ow l e how hnr hk, ihl, plantsFold_concat]
        simp [hpf, plantsStep, he]
      case PLANT_REMOVED =>
        have hpf : plantsFilter e = true := by
          unfold plantsFilter
          rw [he]
          decide
        rw [rebuildPlants_concat_removed l e he, ihl, plantsFold_concat]
        simp [hpf, plantsStep, he]
      all_goals
        have how : offeredOrWanted e = false := by
          unfold offeredOrWanted
          rw [he]
          decide
        have hpf : plantsFilter e = false := by
          unfold plantsFilter
          rw [he]
          decide
        have hnr : ¬ e.type = EventType.PLANT_REMOVED := by
          rw [he]
          decide
        rw [rebuildPlants_concat_other l e how hnr, ihl, plantsFold_concat]
        simp [hpf]

/-- Helper: the history after an append is the old history plus the
finalized event. -/
theorem append_store_hist (s : EventStore) (e : Event) (ok : Bool) :
    (EventStore.append s e ok).store.eventHistory =
      s.eventHistory ++ [(EventStore.append s e ok).event] := rfl

/-- The private `scan` accumulators always hold the fold of the full history:
they are advanced by exactly the filtered events, and `rebuildFromHistory`
never touches them. -/
def ScanInv (s : SystemState) : Prop :=
  s.scanMembers = membersFold s.store.eventHistory ∧
  s.scanPlants = plantsFold s.store.eventHistory ∧
  s.scanMessages = messagesFold s.store.eventHistory

/-- Helper: every operation preserves `ScanInv`. -/
theorem scanInv_step (s : SystemState) (hs : ScanInv s) (op : Op) :
    ScanInv (stepOp s op) := by
  obtain ⟨hm, hp, hg⟩ := hs
  cases op with
  | rebuild => exact ⟨hm, hp, hg⟩
  | register => exact ⟨hm, hp, hg⟩
  | append d =>
      refine ⟨?_, ?_, ?_⟩ <;>
        simp only [stepOp] <;>
        rw [append_store_hist]
      · rw [membersFold_concat, hm]
      · rw [plantsFold_concat, hp]
      · rw [messagesFold_concat, hg]

/-- Helper: `ScanInv` holds after every run from the initial system. -/
theorem runOps_scanInv (ops : List Op) : ScanInv (runOps ops) := by
  suffices hgen : ∀ s, ScanInv s → ScanInv (List.foldl stepOp s ops) from
    hgen sysInit ⟨rfl, rfl, rfl⟩
  induction ops with
  | nil => exact fun s hs => hs
  | cons op rest ih => exact fun s hs => ih (stepOp s op) (scanInv_step s hs op)

/-- Helper: one live append keeps the `BehaviorSubject` values equal to the
folds, assuming the scans hold the folds and the subjects did before. -/
theorem stepOp_append_proj (s : SystemState)
    (hsm : s.scanMembers = membersFold s.store.eventHistory)
    (hsp : s.scanPlants = plantsFold s.store.eventHistory)
    (hsg : s.scanMessages = messagesFold s.store.eventHistory)
    (im : s.projections.members = membersFold s.store.eventHistory)
    (ip : s.projections.plants = plantsFold s.store.eventHistory)
    (ig : s.projections.messages = messagesFold s.store.eventHistory)
    (d : Event) :
    (stepOp s (Op.append d)).projections.members =
      membersFold (stepOp s (Op.append d)).store.eventHistory ∧
    (stepOp s (Op.append d)).projections.plants =
      plantsFold (stepOp s (Op.append d)).store.eventHistory ∧
    (stepOp s (Op.append d)).projections.messages =
      messagesFold (stepOp s (Op.append d)).store.eventHistory := by
  refine ⟨?_, ?_, ?_⟩ <;>
    simp only [stepOp] <;>
    rw [append_store_hist] <;>
    generalize (EventStore.append s.store d true).event = ew
  · rw [membersFold_concat]
    cases hmf : membersFilter ew <;> simp [hmf, im, hsm]
  · rw [plantsFold_concat]
    cases hpf : plantsFilter ew <;> simp [hpf, ip, hsp]
  · rw [messagesFold_concat]
    cases hgf : messagesFilter ew <;> simp [hgf, ig, hsg]

/-- Helper: in any run (appends, rebuilds, registrations interleaved) whose
final history has no re-added removed plant id, the `BehaviorSubject` values
equal the folds of the full history. -/
theorem runOps_proj_eq_folds_of_noReAdd (ops : List Op)
    (h : noReAdd (runOps ops).store.eventHistory) :
    (runOps ops).projections.members =
      membersFold (runOps ops).store.eventHistory ∧
    (runOps ops).projections.plants =
      plantsFold (runOps ops).store.eventHistory ∧
    (runOps ops).projections.messages =
      messagesFold (runOps ops).store.eventHistory := by
  induction ops using List.reverseRecOn with
  | nil => exact ⟨rfl, rfl, rfl⟩
  | append_singleton ops op ih =>
      rw [runOps_concat] at h ⊢
      cases op with
      | register => exact ih h
      | rebuild =>
          simp only [stepOp, rebuildFromHistory, EventStore.getEvents]
          exact ⟨rebuildMembers_eq_fold _,
            rebuildPlants_eq_fold_of_noReAdd _ h, rebuildMessages_eq_fold _⟩
      | append d =>
          have hpre : noReAdd (runOps ops).store.eventHistory := by
            simp only [stepOp] at h
            rw [append_store_hist] at h
            exact (List.pairwise_append.mp h).1
          obtain ⟨im, ip, ig⟩ := ih hpre
          obtain ⟨sm, sp, sg⟩ := runOps_scanInv ops
          exact stepOp_append_proj (runOps ops) sm sp sg im ip ig d

/-- Helper: in a run that never rebuilds, the `BehaviorSubject` values equal
the folds of the full history unconditionally. -/
theorem runOps_proj_eq_folds_of_liveOnly (ops : List Op)
    (h : liveOnly ops) :
    (runOps ops).projections.members =
      membersFold (runOps ops).store.eventHistory ∧
    (runOps ops).projections.plants =
      plantsFold (runOps ops).store.eventHistory ∧
    (runOps ops).projections.messages =
      messagesFold (runOps ops).store.eventHistory := by
  induction ops using List.reverseRecOn with
  | nil => exact ⟨rfl, rfl, rfl⟩
  | append_singleton ops op ih =>
      have hops : liveOnly ops := fun o ho => h o (List.mem_append_left _ ho)
      have hop : notRebuild op = true :=
        h op (List.mem_append_right _ (List.mem_singleton.mpr rfl))
      rw [runOps_concat]
      cases op with
      | rebuild => simp [notRebuild] at hop
      | register => exact ih hops
      | append d =>
          obtain ⟨im, ip, ig⟩ := ih hops
          obtain ⟨sm, sp, sg⟩ := runOps_scanInv ops
          exact stepOp_append_proj (runOps ops) sm sp sg im ip ig d

/-- C1 (amended): in any run — any prefix of appended events, with rebuilds
and registrations interleaved anywhere — whose history never re-offers or
re-wants a previously removed plant id (`noReAdd`; always true in real
executions, where every `payload.id` is a fresh `uuidv4()`), every
projection's current materialized value equals the in-order fold of its
reducer over the full event prefix, and `rebuildFromHistory` reproduces the
incrementally-maintained values exactly.  Without `noReAdd` the plants
projection diverges: see the counterexample. -/
theorem projection_value_eq_fold_of_noReAdd (ops : List Op)
    (h : noReAdd (runOps ops).store.eventHistory) :
    ((runOps ops).projections.members =
        membersFold (runOps ops).store.eventHistory ∧
      (runOps ops).projections.plants =
        plantsFold (runOps ops).store.eventHistory ∧
      (runOps ops).projections.messages =
        messagesFold (runOps ops).store.eventHistory) ∧
    rebuildFromHistory (runOps ops).store (runOps ops).projections =
      (runOps ops).projections := by
  obtain ⟨hm, hp, hg⟩ := runOps_proj_eq_folds_of_noReAdd ops h
  refine ⟨⟨hm, hp, hg⟩, ?_⟩
  have e1 : rebuildMembers (runOps ops).store.eventHistory =
      (runOps ops).projections.members :=
    (rebuildMembers_eq_fold _).trans hm.symm
  have e2 : rebuildPlants (runOps ops).store.eventHistory =
      (runOps ops).projections.plants :=
    (rebuildPlants_eq_fold_of_noReAdd _ h).trans hp.symm
  have e3 : rebuildMessages (runOps ops).store.eventHistory =
      (runOps ops).projections.messages :=
    (rebuildMessages_eq_fold _).trans hg.symm
  simp only [rebuildFromHistory, EventStore.getEvents, e1, e2, e3]

/-- The §8 scenario of the specification: register M1, offer P1, want P2,
remove P1, then an explicit rebuild. -/
def c1WitnessOps : List Op :=
  [Op.append sampleRegistration, Op.append (sampleOffer "P1" "E2"),
   Op.append (sampleWant "P2" "E3"), Op.append (sampleRemoval "P1" "E4"),
   Op.rebuild]

/-- C1 witness: the amended claim evaluated on the §8 scenario. -/
theorem projection_value_eq_fold_witness :
    noReAdd (runOps c1WitnessOps).store.eventHistory ∧
    (((runOps c1WitnessOps).projections.members =
        membersFold (runOps c1WitnessOps).store.eventHistory ∧
      (runOps c1WitnessOps).projections.plants =
        plantsFold (runOps c1WitnessOps).store.eventHistory ∧
      (runOps c1WitnessOps).projections.messages =
        messagesFold (runOps c1WitnessOps).store.eventHistory) ∧
    rebuildFromHistory (runOps c1WitnessOps).store
        (runOps c1WitnessOps).projections =
      (runOps c1WitnessOps).projections) :=
  ⟨by decide, projection_value_eq_fold_of_noReAdd c1WitnessOps (by decide)⟩

/-- A history that re-offers a removed plant id: offer P1, remove P1, offer
P1 again, then rebuild. -/
def c1CexOps : List Op :=
  [Op.append (sampleOffer "P1" "EA"), Op.append (sampleRemoval "P1" "EB"),
   Op.append (sampleOffer "P1" "EC"), Op.rebuild]

/-- C1 counterexample: after offer-remove-offer of the same plant id and a
rebuild, the plants projection's materialized value (the rebuilt map, which
omitted P1 although it was re-offered later) differs from the in-order fold
of the same prefix (which contains P1) — rebuild and incremental application
do not yield identical snapshots. -/
theorem c1_counterexample :
    (runOps c1CexOps).projections.plants ≠
      plantsFold (runOps c1CexOps).store.eventHistory := by
  decide

/-- C2 (amended): for a single append, every registered subscriber is handed
the same message list in the same relative order — but that order is: the
`*_updated` message of each projection whose filter matched the event first,
then the raw `'event'` message last.  (The original claim's order — event
first — is refuted by `c2_counterexample`.) -/
theorem broadcast_same_order_event_last (s : SystemState) (draft : Event) :
    (stepOp s (Op.append draft)).sseClients =
      s.sseClients.map
        (fun q => q ++ broadcastsFor s (EventStore.append s.store draft true).event) ∧
    (broadcastsFor s (EventStore.append s.store draft true).event).getLast? =
      some (Msg.eventMsg (EventStore.append s.store draft true).event) ∧
    ∀ m ∈ (broadcastsFor s (EventStore.append s.store draft true).event).dropLast,
      isProjectionUpdate m = true := by
  refine ⟨rfl, ?_, ?_⟩ <;>
  · generalize (EventStore.append s.store draft true).event = ew
    cases hm : membersFilter ew <;> cases hp : plantsFilter ew <;>
      cases hg : messagesFilter ew <;>
      simp [broadcastsFor, hm, hp, hg, isProjectionUpdate]

/-- C2 counterexample: a subscriber registered before a concrete
`MEMBER_REGISTERED` append receives the `members_updated` projection message
strictly before the `'event'` message — it observes a projection update for
an event it has not yet received. -/
theorem c2_counterexample :
    ((runOps [Op.register, Op.append sampleRegistration]).sseClients.headD
        []).findIdx isProjectionUpdate <
      ((runOps [Op.register, Op.append sampleRegistration]).sseClients.headD
        []).findIdx isEventMsg := by
  decide

/-- C9: a subscriber registering at any point of a run that has not rebuilt
(any number of live appends and earlier registrations) is immediately handed,
as its one enqueued message and before any further event, the
`initial_state` snapshot of every projection — and that snapshot is exactly
the fold of all events appended so far. -/
theorem register_enqueues_full_snapshot (ops : List Op) (h : liveOnly ops) :
    (stepOp (runOps ops) Op.register).sseClients =
      (runOps ops).sseClients ++
        [[Msg.initialState
            { members := mapValues (membersFold (runOps ops).store.eventHistory),
              plants := mapValues (plantsFold (runOps ops).store.eventHistory),
              messages :=
                mapValues (messagesFold (runOps ops).store.eventHistory) }]] := by
  obtain ⟨hm, hp, hg⟩ := runOps_proj_eq_folds_of_liveOnly ops h
  simp only [stepOp, getCurrentState, hm, hp, hg]

/-- A concrete `MESSAGE_SENT` draft event. -/
def sampleMessageEvent : Event :=
  createEvent EventType.MESSAGE_SENT
    (createMessage (some "M1") (some "M2") (some "hello") none "MSG1"
      "2024-01-03")
    (some "M1") "E5" "2024-01-03"

/-- The five appends used by the C9 witness. -/
def c9WitnessOps : List Op :=
  [Op.append sampleRegistration, Op.append (sampleOffer "P1" "E2"),
   Op.append (sampleWant "P2" "E3"), Op.append (sampleRemoval "P1" "E4"),
   Op.append sampleMessageEvent]

/-- C9 witness: a subscriber registering after five concrete appends is
immediately handed the snapshot reflecting all five folded events. -/
theorem register_enqueues_full_snapshot_witness :
    liveOnly c9WitnessOps ∧
    (stepOp (runOps c9WitnessOps) Op.register).sseClients =
      (runOps c9WitnessOps).sseClients ++
        [[Msg.initialState
            { members :=
                mapValues (membersFold (runOps c9WitnessOps).store.eventHistory),
              plants :=
                mapValues (plantsFold (runOps c9WitnessOps).store.eventHistory),
              messages :=
                mapValues
                  (messagesFold (runOps c9WitnessOps).store.eventHistory) }]] :=
  ⟨by decide, register_enqueues_full_snapshot c9WitnessOps (by decide)⟩

/-- C10: `getEvents()` hands out a fresh copy of the history: the copy's
contents equal the log at call time, overwriting the copy leaves the log
unchanged, and an event appended after the call never shows up in the
previously returned copy. -/
theorem getEvents_copy_isolated (h : Heap) (st : StoreRef)
    (hv : st.histRef < h.cells.length) :
    readRef (getEventsRef h st).1 (getEventsRef h st).2 =
      readRef h st.histRef ∧
    (∀ v, readRef (writeRef (getEventsRef h st).1 (getEventsRef h st).2 v)
        st.histRef = readRef h st.histRef) ∧
    ∀ e, readRef (appendRef (getEventsRef h st).1 st e).1
        (getEventsRef h st).2 = readRef h st.histRef := by
  have hne : h.cells.length ≠ st.histRef := by omega
  refine ⟨?_, ?_, ?_⟩
  · simp [getEventsRef, alloc, readRef, List.getD_eq_getElem?_getD,
      List.getElem?_concat_length]
  · intro v
    simp [getEventsRef, alloc, writeRef, readRef, List.getD_eq_getElem?_getD,
      List.getElem?_set_ne hne, List.getElem?_append_left hv]
  · intro e
    simp [getEventsRef, alloc, appendRef, writeRef, readRef,
      List.getD_eq_getElem?_getD, List.getElem?_set_ne (Ne.symm hne),
      List.getElem?_concat_length]

/-- C10 witness: on a one-cell heap holding a one-event log, the copy equals
the log, overwriting the copy leaves the log intact, and appending afterwards
leaves the copy intact. -/
theorem getEvents_copy_isolated_witness :
    (StoreRef.mk 0).histRef < (Heap.mk [[sampleRegistration]]).cells.length ∧
    (readRef (getEventsRef (Heap.mk [[sampleRegistration]]) (StoreRef.mk 0)).1
        (getEventsRef (Heap.mk [[sampleRegistration]]) (StoreRef.mk 0)).2 =
      readRef (Heap.mk [[sampleRegistration]]) (StoreRef.mk 0).histRef ∧
    (∀ v, readRef (writeRef
        (getEventsRef (Heap.mk [[sampleRegistration]]) (StoreRef.mk 0)).1
        (getEventsRef (Heap.mk [[sampleRegistration]]) (StoreRef.mk 0)).2 v)
        (StoreRef.mk 0).histRef =
      readRef (Heap.mk [[sampleRegistration]]) (StoreRef.mk 0).histRef) ∧
    ∀ e, readRef (appendRef
        (getEventsRef (Heap.mk [[sampleRegistration]]) (StoreRef.mk 0)).1
        (StoreRef.mk 0) e).1
        (getEventsRef (Heap.mk [[sampleRegistration]]) (StoreRef.mk 0)).2 =
      readRef (Heap.mk [[sampleRegistration]]) (StoreRef.mk 0).histRef) :=
  ⟨by decide,
   getEvents_copy_isolated (Heap.mk [[sampleRegistration]]) (StoreRef.mk 0)
     (by decide)⟩

end PlantExchange
